import Mathlib

/-!
Verification of the Sphinx documentation build configuration of OpenGSLB
(`docs/conf.py`) against its natural-language specification.

The configuration module is a sequence of constant assignments.  Each
binding of `docs/conf.py` is embedded below as a Lean definition carrying
the same name and literal value as in the source.  The module as a whole
is embedded as a list of assignment statements over a small Python value
and expression domain, with an evaluator that threads an environment, so
that claims about evaluating the module can be stated.  The two
`linkcheck_ignore` entries are regular expressions; a matcher for the
regex subset they use (literal characters, escaped punctuation, the any
wildcard, and the star repetition, anchored at the start as Python
re.match is) is defined and proved correct on those patterns.
-/

namespace DocsConf

/-- Scalar Python values occurring in `docs/conf.py`: strings, integers
and booleans. -/
inductive PyScalar where
  | str (s : String)
  | int (n : Int)
  | bool (b : Bool)
deriving DecidableEq, Repr

/-- Python values occurring at the top level of `docs/conf.py`: scalars,
lists of scalars, and string-keyed dictionaries of scalars. -/
inductive PyVal where
  | scalar (v : PyScalar)
  | list (xs : List PyScalar)
  | dict (entries : List (String × PyScalar))
deriving DecidableEq, Repr

/-- Expressions on the right-hand side of a module-level assignment.  A
literal always evaluates; a variable reference fails when unbound (the
only failure an assignment statement of this form can raise). -/
inductive Expr where
  | lit (v : PyVal)
  | ref (x : String)
deriving DecidableEq, Repr

/-- Whether an expression is a literal (no evaluation can fail on it). -/
def Expr.isLit : Expr → Bool
  | .lit _ => true
  | .ref _ => false

/-- A module-level assignment statement `target = value`. -/
structure Stmt where
  target : String
  value : Expr
deriving DecidableEq, Repr

/-- Evaluate an expression in an environment of bindings. -/
def evalExpr (env : List (String × PyVal)) : Expr → Except String PyVal
  | .lit v => .ok v
  | .ref x =>
    match env.lookup x with
    | some v => .ok v
    | none => .error ("NameError: " ++ x)

/-- Evaluate a list of assignment statements in order, extending the
environment with each binding; stop at the first error. -/
def evalStmts (env : List (String × PyVal)) : List Stmt → Except String (List (String × PyVal))
  | [] => .ok env
  | s :: rest =>
    match evalExpr env s.value with
    | .ok v => evalStmts ((s.target, v) :: env) rest
    | .error e => .error e

/-- Binding `project = "OpenGSLB"` (docs/conf.py line 5). -/
def project : String := "OpenGSLB"

/-- Binding `copyright = "2025, Logan Ross"` (docs/conf.py line 6). -/
def copyright : String := "2025, Logan Ross"

/-- Binding `author = "Logan Ross"` (docs/conf.py line 7). -/
def author : String := "Logan Ross"

/-- Binding `extensions = [...]` (docs/conf.py lines 10-16). -/
def extensions : List String :=
  ["myst_parser", "sphinx.ext.autodoc", "sphinx.ext.viewcode",
   "sphinx_copybutton", "sphinx_design"]

/-- Binding `myst_enable_extensions = [...]` (docs/conf.py lines 19-30). -/
def myst_enable_extensions : List String :=
  ["colon_fence", "deflist", "fieldlist", "html_admonition", "html_image",
   "replacements", "smartquotes", "strikethrough", "substitution", "tasklist"]

/-- Binding `myst_heading_anchors = 3` (docs/conf.py line 33). -/
def myst_heading_anchors : Int := 3

/-- Binding `source_suffix`, the dictionary from file suffix to parser
identifier: `.rst` to `restructuredtext`, `.md` to `markdown`
(docs/conf.py lines 36-39). -/
def source_suffix : List (String × String) :=
  [(".rst", "restructuredtext"), (".md", "markdown")]

/-- Binding `master_doc = "index"` (docs/conf.py line 42). -/
def master_doc : String := "index"

/-- Binding `exclude_patterns = ["_build", "Thumbs.db", ".DS_Store"]`
(docs/conf.py line 45). -/
def exclude_patterns : List String := ["_build", "Thumbs.db", ".DS_Store"]

/-- Binding `html_theme = "sphinx_rtd_theme"` (docs/conf.py line 48). -/
def html_theme : String := "sphinx_rtd_theme"

/-- Binding `html_theme_options = {...}` (docs/conf.py lines 50-56). -/
def html_theme_options : List (String × PyScalar) :=
  [("navigation_depth", .int 4),
   ("collapse_navigation", .bool false),
   ("sticky_navigation", .bool true),
   ("includehidden", .bool true),
   ("titles_only", .bool false)]

/-- Binding `linkcheck_ignore`, the two raw regular-expression strings
of docs/conf.py lines 62-65. -/
def linkcheck_ignore : List String :=
  ["http://localhost.*", "http://127\\.0\\.0\\.1.*"]

/-- Binding `suppress_warnings = ["myst.header", "ref.myst"]` (docs/conf.py line 68). -/
def suppress_warnings : List String := ["myst.header", "ref.myst"]

/-- The module body of `docs/conf.py` as the ordered list of its thirteen
assignment statements, each binding a name to a literal value. -/
def confModule : List Stmt :=
  [⟨"project", .lit (.scalar (.str project))⟩,
   ⟨"copyright", .lit (.scalar (.str copyright))⟩,
   ⟨"author", .lit (.scalar (.str author))⟩,
   ⟨"extensions", .lit (.list (extensions.map .str))⟩,
   ⟨"myst_enable_extensions", .lit (.list (myst_enable_extensions.map .str))⟩,
   ⟨"myst_heading_anchors", .lit (.scalar (.int myst_heading_anchors))⟩,
   ⟨"source_suffix", .lit (.dict (source_suffix.map (fun p => (p.1, .str p.2))))⟩,
   ⟨"master_doc", .lit (.scalar (.str master_doc))⟩,
   ⟨"exclude_patterns", .lit (.list (exclude_patterns.map .str))⟩,
   ⟨"html_theme", .lit (.scalar (.str html_theme))⟩,
   ⟨"html_theme_options", .lit (.dict html_theme_options)⟩,
   ⟨"linkcheck_ignore", .lit (.list (linkcheck_ignore.map .str))⟩,
   ⟨"suppress_warnings", .lit (.list (suppress_warnings.map .str))⟩]

/-- Evaluating the configuration module from the empty environment. -/
def evalConf : Except String (List (String × PyVal)) := evalStmts [] confModule

/-- A regex atom of the subset used by `linkcheck_ignore`: a literal
character, or the `.` wildcard (any character except newline, as in
Python by default). -/
inductive Atom where
  | lit (c : Char)
  | any
deriving DecidableEq, Repr

/-- A pattern token: an atom paired with a flag telling whether it
carries the `*` repetition. -/
abbrev Tok := Atom × Bool

/-- Characters that are special in a Python regular expression; a bare
occurrence other than the handled `.`, `*` and the backslash makes the
pattern fall outside the embedded subset. -/
def metaChars : List Char :=
  ['.', '*', '\\', '?', '+', '[', ']', '(', ')', '{', '}', '|', '^', '$']

/-- Does an atom match one character?  The `.` wildcard excludes the
newline, as the Python re module does without DOTALL. -/
def atomMatch : Atom → Char → Bool
  | .lit c, c' => c == c'
  | .any, c' => c' != '\n'

/-- Lexer for the embedded regex subset, one character per step.  `esc`
records a pending backslash; `pend` holds the previous atom, emitted
unstarred once the next token shows it is not followed by `*`. -/
def tokenizeAux : List Char → Bool → Option Atom → Option (List Tok)
  | [], esc, pend =>
    if esc then none
    else
      match pend with
      | none => some []
      | some a => some [(a, false)]
  | c :: rest, true, pend =>
    if c.isAlphanum then none
    else
      match pend with
      | none => tokenizeAux rest false (some (.lit c))
      | some a => Option.map (fun ts => (a, false) :: ts) (tokenizeAux rest false (some (.lit c)))
  | c :: rest, false, pend =>
    if c = '\\' then tokenizeAux rest true pend
    else if c = '*' then
      match pend with
      | none => none
      | some a => Option.map (fun ts => (a, true) :: ts) (tokenizeAux rest false none)
    else if c = '.' then
      match pend with
      | none => tokenizeAux rest false (some .any)
      | some a => Option.map (fun ts => (a, false) :: ts) (tokenizeAux rest false (some .any))
    else if c ∈ metaChars then none
    else
      match pend with
      | none => tokenizeAux rest false (some (.lit c))
      | some a => Option.map (fun ts => (a, false) :: ts) (tokenizeAux rest false (some (.lit c)))

/-- Tokenize a pattern of the embedded regex subset. -/
def tokenize (p : List Char) : Option (List Tok) := tokenizeAux p false none

/-- Does a token list match some prefix of the character list?  This is
the anchored-at-start, unanchored-at-end semantics of Python
`re.match`: an exhausted pattern accepts whatever characters remain. -/
def reAccept : List Tok → List Char → Bool
  | [], _ => true
  | (_, false) :: _, [] => false
  | (a, false) :: rest, c :: cs => atomMatch a c && reAccept rest cs
  | (_, true) :: rest, [] => reAccept rest []
  | (a, true) :: rest, c :: cs =>
    reAccept rest (c :: cs) || (atomMatch a c && reAccept ((a, true) :: rest) cs)
termination_by toks cs => (toks.length, cs.length)

/-- `re.match(pat, s)` succeeds: the pattern, read in the embedded
subset, matches at the start of `s`. -/
def reMatch (pat s : String) : Bool :=
  match tokenize pat.toList with
  | some toks => reAccept toks s.toList
  | none => false

/-- A URL is excluded from link validation when some pattern of
`linkcheck_ignore` matches it, as the Sphinx linkcheck builder does. -/
def urlIgnored (s : String) : Bool := linkcheck_ignore.any (fun p => reMatch p s)

/-- The token list of a plain literal word, no repetitions. -/
def litToks (w : List Char) : List Tok := w.map (fun c => (Atom.lit c, false))

/-- Modelled from the spec: the set of markdown-extension toggles the
specification lists (definition lists, field lists, HTML admonitions,
inline HTML images, text substitutions, smart quotes, strikethrough,
substitutions, task lists), each written as the MyST toggle identifier
naming that feature.  This definition follows the words of the spec and is
compared with `myst_enable_extensions`, which is taken from the source. -/
def specListedMystExtensions : List String :=
  ["deflist", "fieldlist", "html_admonition", "html_image",
   "replacements", "smartquotes", "strikethrough", "substitution", "tasklist"]

/-- The extension that provides each parser identifier named by
`source_suffix`, as the claim states it: the `markdown` parser is
provided by the `myst_parser` plugin, while `restructuredtext` is built
into the documentation tool and needs no entry in `extensions`. -/
def providerOf : String → Option String
  | "markdown" => some "myst_parser"
  | _ => none

/-- Matching a literal word followed by more tokens: the word must be a
prefix and the rest of the pattern matches the remainder. -/
theorem reAccept_litToks_append (w : List Char) (rest : List Tok) :
    ∀ cs, reAccept (litToks w ++ rest) cs = true ↔
      ∃ cs', cs = w ++ cs' ∧ reAccept rest cs' = true := by
  induction w with
  | nil =>
    intro cs
    simp [litToks]
  | cons c w ih =>
    intro cs
    cases cs with
    | nil =>
      simp only [litToks, List.map_cons, List.cons_append]
      simp [reAccept]
    | cons c' cs =>
      simp only [litToks, List.map_cons, List.cons_append]
      simp only [reAccept, Bool.and_eq_true, atomMatch, beq_iff_eq]
      constructor
      · rintro ⟨rfl, h⟩
        obtain ⟨cs', hcs, h'⟩ := (ih cs).mp h
        exact ⟨cs', by rw [hcs], h'⟩
      · rintro ⟨cs', h, h'⟩
        injection h with h1 h2
        exact ⟨h1.symm, (ih cs).mpr ⟨cs', h2, h'⟩⟩

/-- A starred wildcard at the end of a pattern accepts anything. -/
theorem reAccept_anyStar : ∀ cs, reAccept [(Atom.any, true)] cs = true := by
  intro cs
  cases cs with
  | nil => simp [reAccept]
  | cons c cs => simp [reAccept]

/-- A pattern tokenizing to a literal word followed by `.*` matches a
string exactly when the word is a prefix of it. -/
theorem reMatch_prefix_wild (pat : String) (w : List Char)
    (h : tokenize pat.toList = some (litToks w ++ [(Atom.any, true)])) (s : String) :
    reMatch pat s = true ↔ w <+: s.toList := by
  have hm : reMatch pat s = reAccept (litToks w ++ [(Atom.any, true)]) s.toList := by
    unfold reMatch
    rw [h]
  rw [hm, reAccept_litToks_append]
  constructor
  · rintro ⟨cs', hcs, _⟩
    exact ⟨cs', hcs.symm⟩
  · rintro ⟨t, ht⟩
    exact ⟨t, ht.symm, reAccept_anyStar t⟩

/-- The first `linkcheck_ignore` pattern matches exactly the URLs that
begin with `http://localhost`. -/
theorem reMatch_localhost_iff (s : String) :
    reMatch "http://localhost.*" s = true ↔ "http://localhost".toList <+: s.toList :=
  reMatch_prefix_wild _ _ (by decide) s

/-- The second `linkcheck_ignore` pattern matches exactly the URLs that
begin with `http://127.0.0.1`. -/
theorem reMatch_loopback_iff (s : String) :
    reMatch "http://127\\.0\\.0\\.1.*" s = true ↔ "http://127.0.0.1".toList <+: s.toList :=
  reMatch_prefix_wild _ _ (by decide) s

/-- A URL is ignored exactly when it starts with one of the two literal
address prefixes. -/
theorem urlIgnored_iff (s : String) :
    urlIgnored s = true ↔
      ("http://localhost".toList <+: s.toList ∨ "http://127.0.0.1".toList <+: s.toList) := by
  unfold urlIgnored linkcheck_ignore
  simp [reMatch_localhost_iff, reMatch_loopback_iff]

end DocsConf

namespace DocsConf

theorem evalStmts_ok_of_lits : ∀ stmts : List Stmt, ∀ env,
    stmts.all (fun st => st.value.isLit) = true → (evalStmts env stmts).isOk = true := by
  intro stmts
  induction stmts with
  | nil => intro env _; rfl
  | cons st rest ih =>
    intro env hall
    simp only [List.all_cons, Bool.and_eq_true] at hall
    obtain ⟨h1, h2⟩ := hall
    cases hv : st.value with
    | lit v => simp [evalStmts, evalExpr, hv, ih _ h2]
    | ref x => rw [hv] at h1; simp [Expr.isLit] at h1

end DocsConf

open DocsConf

/-- C1: the source-suffix mapping contains exactly two entries, `.rst`
mapping to `restructuredtext` and `.md` mapping to `markdown`, with no
other key present. -/
theorem source_suffix_exactly_two_entries :
    source_suffix.length = 2 ∧
    source_suffix.map Prod.fst = [".rst", ".md"] ∧
    source_suffix.lookup ".rst" = some "restructuredtext" ∧
    source_suffix.lookup ".md" = some "markdown" := by decide

/-- C2 counterexample: the toggle `colon_fence` is enabled by the code
but is not among the nine features the spec lists, so the enabled set is
not exactly the listed set. -/
theorem myst_colon_fence_enabled_but_unlisted :
    "colon_fence" ∈ myst_enable_extensions ∧
    "colon_fence" ∉ specListedMystExtensions := by decide

/-- C2 amended: the enabled markdown-extension toggles are exactly the
nine features the spec lists together with the colon-fence toggle, with
no duplicates. -/
theorem myst_extensions_exactly_listed_plus_colon_fence :
    myst_enable_extensions.all
      (fun t => ("colon_fence" :: specListedMystExtensions).contains t) = true ∧
    ("colon_fence" :: specListedMystExtensions).all
      (fun t => myst_enable_extensions.contains t) = true ∧
    myst_enable_extensions.Nodup := by decide

/-- C3: the link-check ignore list holds exactly two patterns; the first
matches precisely the URLs beginning with `http://localhost` and the
second precisely the URLs beginning with `http://127.0.0.1`. -/
theorem linkcheck_ignore_exactly_localhost_loopback :
    linkcheck_ignore = ["http://localhost.*", "http://127\\.0\\.0\\.1.*"] ∧
    (∀ s : String, reMatch "http://localhost.*" s = true ↔
      "http://localhost".toList <+: s.toList) ∧
    (∀ s : String, reMatch "http://127\\.0\\.0\\.1.*" s = true ↔
      "http://127.0.0.1".toList <+: s.toList) :=
  ⟨rfl, reMatch_localhost_iff, reMatch_loopback_iff⟩

/-- C3 witness: concrete URLs matched by each pattern. -/
theorem linkcheck_ignore_exactly_localhost_loopback_witness :
    reMatch "http://localhost.*" "http://localhost:8080/x" = true ∧
    reMatch "http://127\\.0\\.0\\.1.*" "http://127.0.0.1/docs" = true :=
  ⟨(linkcheck_ignore_exactly_localhost_loopback.2.1 "http://localhost:8080/x").mpr
     ⟨":8080/x".toList, by decide⟩,
   (linkcheck_ignore_exactly_localhost_loopback.2.2 "http://127.0.0.1/docs").mpr
     ⟨"/docs".toList, by decide⟩⟩

/-- C4: the exclude-patterns value is exactly the three entries naming
the build output directory and the OS artifact files. -/
theorem exclude_patterns_exactly_three :
    exclude_patterns = ["_build", "Thumbs.db", ".DS_Store"] ∧
    exclude_patterns.Nodup := by decide

/-- C5: the HTML theme-options record holds exactly the five recognized
options, the navigation depth bound to an integer and the four others to
booleans, and an HTML theme identifier is defined. -/
theorem html_theme_options_exactly_five :
    html_theme_options.map Prod.fst =
      ["navigation_depth", "collapse_navigation", "sticky_navigation",
       "includehidden", "titles_only"] ∧
    html_theme_options.lookup "navigation_depth" = some (.int 4) ∧
    html_theme_options.lookup "collapse_navigation" = some (.bool false) ∧
    html_theme_options.lookup "sticky_navigation" = some (.bool true) ∧
    html_theme_options.lookup "includehidden" = some (.bool true) ∧
    html_theme_options.lookup "titles_only" = some (.bool false) ∧
    html_theme = "sphinx_rtd_theme" := by decide

/-- C6 counterexample: the copyright string of the code is
`2025, Logan Ross`, which does not contain `OpenGSLB`, so the claim that
the copyright string identifies `OpenGSLB` fails. -/
theorem copyright_does_not_contain_project_name :
    project = "OpenGSLB" ∧ ¬ ("OpenGSLB".toList <:+: copyright.toList) := by decide

/-- C6 amended: the three metadata fields are non-empty strings, the
project name equals `OpenGSLB`, and the copyright string identifies the
year and the author, `2025, Logan Ross`. -/
theorem project_metadata_fields :
    project ≠ "" ∧ copyright ≠ "" ∧ author ≠ "" ∧
    project = "OpenGSLB" ∧ copyright = "2025, Logan Ross" := by decide

/-- C7: the suppressed-warnings value is exactly the two warning classes
`myst.header` and `ref.myst`. -/
theorem suppress_warnings_exactly_two :
    suppress_warnings = ["myst.header", "ref.myst"] ∧
    suppress_warnings.Nodup := by decide

/-- C8: every statement of the configuration module assigns a literal,
so evaluating the module from any environment succeeds, and the
evaluation from the empty environment binds every assigned name. -/
theorem conf_module_evaluates_totally :
    confModule.all (fun st => st.value.isLit) = true ∧
    (∀ env, (evalStmts env confModule).isOk = true) ∧
    evalConf.isOk = true ∧
    (confModule.map Stmt.target).all
      (fun n => ((evalConf.toOption.getD []).lookup n).isSome) = true :=
  ⟨by decide, fun env => evalStmts_ok_of_lits confModule env (by decide),
   by decide, by decide⟩

/-- C8 witness: the evaluation from a concrete environment succeeds. -/
theorem conf_module_evaluates_totally_witness :
    (evalStmts [("x", PyVal.scalar (PyScalar.int 0))] confModule).isOk = true :=
  conf_module_evaluates_totally.2.1 [("x", PyVal.scalar (PyScalar.int 0))]

/-- C9: every URL a link-check ignore pattern matches begins with the
plain `http://` scheme, and no URL beginning with `https://` is matched. -/
theorem urlIgnored_only_plain_http (s : String) :
    (urlIgnored s = true → "http://".toList <+: s.toList) ∧
    ("https://".toList <+: s.toList → urlIgnored s = false) := by
  constructor
  · intro h
    rcases (urlIgnored_iff s).mp h with h1 | h1
    · exact List.IsPrefix.trans (by decide) h1
    · exact List.IsPrefix.trans (by decide) h1
  · intro hs
    rw [← Bool.not_eq_true]
    intro h
    rcases (urlIgnored_iff s).mp h with h1 | h1
    · exact absurd (List.prefix_of_prefix_length_le hs h1 (by decide)) (by decide)
    · exact absurd (List.prefix_of_prefix_length_le hs h1 (by decide)) (by decide)

/-- C9 witness: a matched URL indeed starts with `http://`, and a
concrete https URL is not ignored. -/
theorem urlIgnored_only_plain_http_witness :
    ("http://".toList <+: "http://localhost:9".toList) ∧
    urlIgnored "https://127.0.0.1/" = false := by
  constructor
  · apply (urlIgnored_only_plain_http "http://localhost:9").1
    have h1 : reMatch "http://localhost.*" "http://localhost:9" = true :=
      (reMatch_localhost_iff "http://localhost:9").mpr ⟨":9".toList, by decide⟩
    unfold urlIgnored linkcheck_ignore
    simp [h1]
  · exact (urlIgnored_only_plain_http "https://127.0.0.1/").2 ⟨"127.0.0.1/".toList, by decide⟩

/-- C10: the extensions list has no duplicates and contains
`myst_parser`; the `.md` entry of the source-suffix mapping names the
`markdown` parser, and every parser identifier of the mapping that an
extension provides has that extension enabled. -/
theorem extensions_provide_source_suffix_parsers :
    extensions.Nodup ∧ "myst_parser" ∈ extensions ∧
    source_suffix.lookup ".md" = some "markdown" ∧
    (source_suffix.map Prod.snd).all
      (fun p => ((providerOf p).map (fun e => extensions.contains e)).getD true) = true := by
  decide
